import Mathlib

/-!
Verification of the Águas de Coimbra Home Assistant integration.

This file gives a shallow embedding, in Lean, of the reasoned core of the
repository:

* the Window Aggregator
  (`AguasCoimbraDataUpdateCoordinator._process_consumption_data` in
  `src/coordinator_fixed.py`),
* the Cumulative Accumulator
  (`AguasCoimbraCumulativeSensor.native_value` and
  `AguasCoimbraCumulativeSensor.async_added_to_hass` in
  `src/custom_components/aguas_coimbra/sensor.py`),
* the 401 retry behaviour of the API client
  (`AguasCoimbraAPI.get_consumption` / `get_user_subscriptions` in
  `src/custom_components/aguas_coimbra/api.py`),

together with theorems settling the specification claims about them.

Modelling conventions:

* Python numeric consumption values are embedded as integers (`ℤ`); the code
  only adds and compares them, so exact arithmetic is the faithful reading.
* Python `datetime` values (results of `datetime.fromisoformat` and of
  `datetime.now()` / `.replace(...)`) live on an abstract totally ordered
  timeline, embedded as `ℤ` (microseconds, the resolution of `datetime`);
  the stdlib parser `datetime.fromisoformat` and the environment-dependent
  `now`-derived range starts enter as parameters.
* Python strings are compared lexicographically by code point; we embed that
  comparison directly as executable functions on `List Char`, matching the
  source's string comparisons of normalized date strings.
* A Python dict record is embedded as a structure with `Option` fields
  (`None`/absent keys); `d["k"]` on an absent key raises `KeyError`, while
  `d.get("k", default)` yields the default, and both behaviours are kept.
* Raised exceptions are embedded with `Except`.
-/

namespace AguasCoimbra

/-! ### Python string primitives -/

/-- Python's `<=` on strings: lexicographic comparison of code points. -/
def listLe : List Char → List Char → Bool
  | [], _ => true
  | _ :: _, [] => false
  | a :: as, b :: bs => if a < b then true else if b < a then false else listLe as bs

/-- Python's `<` on strings: strict lexicographic comparison of code points. -/
def listLt : List Char → List Char → Bool
  | [], [] => false
  | [], _ :: _ => true
  | _ :: _, [] => false
  | a :: as, b :: bs => if a < b then true else if b < a then false else listLt as bs

/-- Python string `s1 <= s2`. -/
def strLe (s t : String) : Bool := listLe s.data t.data

/-- Python string `s1 < s2` (so `s1 > s2` is `strLt s2 s1`). -/
def strLt (s t : String) : Bool := listLt s.data t.data

/-- Fuel-indexed worker for Python's `str.replace`: scan left to right, and at
each position where the (non-empty) pattern occurs, emit the replacement and
continue after the matched portion. One unit of fuel is spent per scanned
character, so fuel `s.length` always suffices. -/
def pyReplaceAux (pat repl : List Char) : Nat → List Char → List Char
  | 0, s => s
  | _ + 1, [] => []
  | n + 1, c :: rest =>
    if pat.isPrefixOf (c :: rest) && !pat.isEmpty then
      repl ++ pyReplaceAux pat repl n ((c :: rest).drop pat.length)
    else
      c :: pyReplaceAux pat repl n rest

/-- Python's `s.replace(pat, repl)` (all non-overlapping occurrences). -/
def pyReplace (s pat repl : String) : String :=
  ⟨pyReplaceAux pat.data repl.data s.data.length s.data⟩

/-- The date-string normalization used throughout the source:
`s.replace("+00:00", "").replace("+01:00", "")`. -/
def cleanDate (s : String) : String :=
  pyReplace (pyReplace s "+00:00" "") "+01:00" ""

/-! ### Data model -/

/-- A raw consumption record as returned by the API: a JSON object with keys
`date`, `consumption` and `cil`, any of which may be absent. -/
structure Reading where
  date : Option String
  consumption : Option ℤ
  cil : Option String
deriving DecidableEq, Repr

/-- `reading.get("consumption", 0)`. -/
def consD (r : Reading) : ℤ := r.consumption.getD 0

/-- `reading.get("date", "")` as used by the cumulative sensor. -/
def rawDate (r : Reading) : String := r.date.getD ""

/-- The normalized date string of a reading, as the cumulative sensor
computes it. -/
def normDate (r : Reading) : String := cleanDate (rawDate r)

/-- Python exceptions relevant to the embedded code. -/
inductive PyError where
  | keyError (key : String)
  | valueError (arg : String)
deriving DecidableEq, Repr

/-! ### Window Aggregator (`_process_consumption_data`, `src/coordinator_fixed.py`)

Parameters:
* `pd` embeds `datetime.fromisoformat` applied to an (already normalized)
  date string, returning `none` when the stdlib parser would raise
  `ValueError`;
* `todayStart` and `monthStart` embed `now.replace(hour=0, minute=0,
  second=0, microsecond=0)` and `now.replace(day=1, hour=0, ...)` for the
  environment-supplied `now = datetime.now()`;
* `week_start = today_start - timedelta(days=7)` is computed, with the
  timeline in microseconds. -/

/-- Microseconds per day, the resolution of `datetime.timedelta`. -/
def usPerDay : ℤ := 86400000000

/-- The sort key `datetime.fromisoformat(x["date"].replace("+00:00", "").replace("+01:00", ""))`:
raises `KeyError` when `date` is absent and `ValueError` when unparsable. -/
def sortKey (pd : String → Option ℤ) (r : Reading) : Except PyError ℤ :=
  match r.date with
  | none => .error (.keyError "date")
  | some d =>
    match pd (cleanDate d) with
    | none => .error (.valueError d)
    | some t => .ok t

/-- Whether the sort key of `r` is computable without an exception. -/
def keyB (pd : String → Option ℤ) (r : Reading) : Bool :=
  match sortKey pd r with
  | .ok _ => true
  | .error _ => false

/-- The sort key with a junk default (only used where `keyB` holds). -/
def keyD (pd : String → Option ℤ) (r : Reading) : ℤ :=
  match sortKey pd r with
  | .ok t => t
  | .error _ => 0

/-- `sorted(data, key=...)` evaluates the key of every element, in original
list order, before sorting; the first failure aborts with that exception. -/
def firstKeyError (pd : String → Option ℤ) : List Reading → Option PyError
  | [] => none
  | r :: rs =>
    match sortKey pd r with
    | .error e => some e
    | .ok _ => firstKeyError pd rs

/-- `sorted(data, key=..., reverse=True)`: a stable sort, most recent first.
`List.insertionSort` with the reflexive relation `keyD b ≤ keyD a` places an
element before all strictly older ones and before key-equal ones of the
sorted suffix, which is exactly Python's stable descending sort. -/
def sortedByDateDesc (pd : String → Option ℤ) (data : List Reading) : List Reading :=
  List.insertionSort (fun a b => keyD pd b ≤ keyD pd a) data

/-- The mutable totals of the aggregation loop. -/
structure LoopAcc where
  daily : ℤ
  weekly : ℤ
  monthly : ℤ
  negCount : ℕ
  adjTotal : ℤ
deriving DecidableEq, Repr

/-- Adding one reading's consumption to whichever range totals it falls in
(`reading_date >= today_start` etc.; no upper bound). -/
def addRanges (todayStart weekStart monthStart : ℤ) (acc : LoopAcc) (t c : ℤ) : LoopAcc :=
  { acc with
    daily := if todayStart ≤ t then acc.daily + c else acc.daily
    weekly := if weekStart ≤ t then acc.weekly + c else acc.weekly
    monthly := if monthStart ≤ t then acc.monthly + c else acc.monthly }

/-- One iteration of the aggregation loop of `_process_consumption_data`:
re-parse the date (`except (ValueError, KeyError): continue`), default a
missing consumption to 0, count and sum negative values, skip them when
`filter_negative_values` is set, and otherwise add to the range totals. -/
def loopStep (pd : String → Option ℤ) (todayStart weekStart monthStart : ℤ)
    (fneg : Bool) (acc : LoopAcc) (r : Reading) : LoopAcc :=
  match sortKey pd r with
  | .error _ => acc
  | .ok t =>
    let c := consD r
    if c < 0 then
      let acc1 := { acc with negCount := acc.negCount + 1, adjTotal := acc.adjTotal + c }
      if fneg then acc1 else addRanges todayStart weekStart monthStart acc1 t c
    else
      addRanges todayStart weekStart monthStart acc t c

/-- The dict returned by `_process_consumption_data` (the empty-data return
lacks the `cil` and `meter_number` keys; downstream access is via `.get`, so
absent keys are embedded as `none`). -/
structure Snapshot where
  latest_reading : Option ℤ
  daily_total : ℤ
  weekly_total : ℤ
  monthly_total : ℤ
  last_reading_date : Option String
  cil : Option String
  meter_number : Option String
  all_readings : List Reading
  negative_values_found : ℕ
  adjustments_total : ℤ
deriving DecidableEq, Repr

/-- The snapshot returned for an empty fetch window. -/
def emptySnapshot : Snapshot :=
  { latest_reading := none
    daily_total := 0
    weekly_total := 0
    monthly_total := 0
    last_reading_date := none
    cil := none
    meter_number := none
    all_readings := []
    negative_values_found := 0
    adjustments_total := 0 }

/-- `AguasCoimbraDataUpdateCoordinator._process_consumption_data` from
`src/coordinator_fixed.py`. -/
def processConsumptionData (pd : String → Option ℤ) (meterNumber : String)
    (todayStart monthStart : ℤ) (fneg : Bool) (data : List Reading) :
    Except PyError Snapshot :=
  if data.isEmpty then .ok emptySnapshot
  else
    match firstKeyError pd data with
    | some e => .error e
    | none =>
      let sorted := sortedByDateDesc pd data
      let latest : Option Reading := sorted.head?
      let latestCons : Except PyError (Option ℤ) :=
        match latest with
        | none => .ok none
        | some l =>
          match l.consumption with
          | none => .error (.keyError "consumption")
          | some c => .ok (some c)
      let latestDate : Except PyError (Option String) :=
        match latest with
        | none => .ok none
        | some l =>
          match l.date with
          | none => .error (.keyError "date")
          | some d => .ok (some d)
      match latestCons, latestDate with
      | .error e, _ => .error e
      | .ok _, .error e => .error e
      | .ok lc, .ok ld =>
        let weekStart := todayStart - 7 * usPerDay
        let acc := sorted.foldl (loopStep pd todayStart weekStart monthStart fneg) ⟨0, 0, 0, 0, 0⟩
        .ok
          { latest_reading := lc
            daily_total := if fneg then max 0 acc.daily else acc.daily
            weekly_total := if fneg then max 0 acc.weekly else acc.weekly
            monthly_total := if fneg then max 0 acc.monthly else acc.monthly
            last_reading_date := ld
            cil := latest.bind Reading.cil
            meter_number := some meterNumber
            all_readings := sorted.take 100
            negative_values_found := acc.negCount
            adjustments_total := acc.adjTotal }

/-! ### Cumulative Accumulator (`AguasCoimbraCumulativeSensor`, `sensor.py`) -/

/-- The sensor's persistent state: `_cumulative_value` and
`_last_processed_date`. -/
structure CumState where
  cumulative_value : ℤ
  last_processed_date : Option String
deriving DecidableEq, Repr

/-- The dedup check
`if self._last_processed_date: if reading_date_str_clean <= self._last_processed_date: continue`.
Python truthiness makes an empty-string `_last_processed_date` skip nothing. -/
def skipOld (lpd : Option String) (cl : String) : Bool :=
  match lpd with
  | none => false
  | some d => if d = "" then false else strLe cl d

/-- One iteration of the cumulative loop in `native_value`: accumulator is
`(incremental, most_recent_date)`, `lpd` is the (fixed) value of
`self._last_processed_date` at the start of the tick. -/
def cumulStep (lpd : Option String) (acc : ℤ × Option String) (r : Reading) :
    ℤ × Option String :=
  if rawDate r = "" then acc
  else if skipOld lpd (normDate r) then acc
  else
    (acc.1 + consD r,
     match acc.2 with
     | none => some (normDate r)
     | some m => if strLt m (normDate r) then some (normDate r) else some m)

/-- The whole cumulative loop: `incremental` starts at 0, `most_recent_date`
starts at `self._last_processed_date`. -/
def cumulIngest (lpd : Option String) (rs : List Reading) : ℤ × Option String :=
  rs.foldl (cumulStep lpd) (0, lpd)

/-- The state update of one `native_value` tick on a given `all_readings`
list: commit `incremental` and `most_recent_date` only when
`incremental > 0`. -/
def ingestTick (st : CumState) (rs : List Reading) : CumState :=
  if rs.isEmpty then st
  else if 0 < (cumulIngest st.last_processed_date rs).1 then
    ⟨st.cumulative_value + (cumulIngest st.last_processed_date rs).1,
     (cumulIngest st.last_processed_date rs).2⟩
  else st

/-- The value `native_value` returns:
`self._cumulative_value if self._cumulative_value > 0 else None`. -/
def displayVal (st : CumState) : Option ℤ :=
  if 0 < st.cumulative_value then some st.cumulative_value else none

/-- `AguasCoimbraCumulativeSensor.native_value`: reads
`self.coordinator.data` (`none` when unavailable), ingests
`data["all_readings"]`, and returns the new state plus the displayed value. -/
def nativeValue (st : CumState) (data : Option Snapshot) : CumState × Option ℤ :=
  match data with
  | none => (st, displayVal st)
  | some s =>
    (ingestTick st s.all_readings, displayVal (ingestTick st s.all_readings))

/-- The platform-restored state handed to `async_added_to_hass`: the
persisted state string and the persisted attribute dict. -/
structure LastState where
  state : String
  attributes : List (String × String)
deriving DecidableEq, Repr

/-- `AguasCoimbraCumulativeSensor.async_added_to_hass` acting on the state
the constructor initialized; `parseFloat` embeds Python's `float(...)`
(`none` when it would raise `ValueError`/`TypeError`). On parse success the
attribute dict (when truthy, i.e. non-empty) supplies
`attributes.get("last_processed_date")`; on failure both fields reset. -/
def asyncAddedToHass (parseFloat : String → Option ℤ) (last : Option LastState)
    (st : CumState) : CumState :=
  match last with
  | none => st
  | some ls =>
    match parseFloat ls.state with
    | some v =>
      { cumulative_value := v
        last_processed_date :=
          if ls.attributes.isEmpty then st.last_processed_date
          else ls.attributes.lookup "last_processed_date" }
    | none => { cumulative_value := 0, last_processed_date := none }

/-! ### API client 401 retry behaviour (`api.py`)

A call is run against the list of responses the server will give to the
successive HTTP requests of this one logical call (one list entry consumed
per issued request). On a 401 the code re-authenticates (`login()`; modelled
as succeeding, the scenario in which the persistent-401 question arises) and
then calls itself recursively. The empty list is a modelling artefact
representing "no further response"; `retryCount` counts the retried
requests of one call. -/

/-- Errors raised by the API client. -/
inductive ApiError where
  | invalidResponse (status : Nat)
  | invalidFormat
  | exhausted
deriving DecidableEq, Repr

/-- One HTTP response to a request of the client. -/
inductive ApiResp where
  | unauthorized
  | httpError (status : Nat)
  | okJson (body : Option (List Reading))
deriving DecidableEq, Repr

/-- `AguasCoimbraAPI.get_consumption`: on 401 re-authenticate and recurse;
on another non-200 status raise `InvalidResponseError`; on 200 raise
`InvalidResponseError` unless the body is a list. -/
def getConsumptionRun : List ApiResp → Except ApiError (List Reading)
  | [] => .error .exhausted
  | .unauthorized :: rest => getConsumptionRun rest
  | .httpError s :: _ => .error (.invalidResponse s)
  | .okJson none :: _ => .error .invalidFormat
  | .okJson (some l) :: _ => .ok l

/-- `AguasCoimbraAPI.get_user_subscriptions`: on 401 re-authenticate and
recurse; on another non-200 status, and on a non-list body, return `[]`. -/
def getUserSubscriptionsRun : List ApiResp → Except ApiError (List Reading)
  | [] => .error .exhausted
  | .unauthorized :: rest => getUserSubscriptionsRun rest
  | .httpError _ :: _ => .ok []
  | .okJson none :: _ => .ok []
  | .okJson (some l) :: _ => .ok l

/-- The number of retried requests a call performs on a given response
sequence: one per leading 401. -/
def retryCount : List ApiResp → Nat
  | .unauthorized :: rest => retryCount rest + 1
  | _ => 0

/-! ### Derived predicates used in the statements -/

/-- A reading is counted into `negative_values_found` / `adjustments_total`
iff its date parses and its (defaulted) consumption is negative; this does
not depend on the filter flag. -/
def negFilter (pd : String → Option ℤ) (r : Reading) : Bool :=
  keyB pd r && decide (consD r < 0)

/-- A reading is summed into the range total with start `start` iff its date
parses, it is not a negative reading excluded by the filter flag `f`, and its
timestamp is `≥ start`. -/
def rangeFilter (pd : String → Option ℤ) (f : Bool) (start : ℤ) (r : Reading) : Bool :=
  keyB pd r && !(f && decide (consD r < 0)) && decide (start ≤ keyD pd r)

/-- Total consumption (with the `.get` default) of a list of readings. -/
def sumCons (l : List Reading) : ℤ := (l.map consD).sum

/-- The loop accumulator `_process_consumption_data` ends with on non-empty
parseable data. -/
def procAcc (pd : String → Option ℤ) (ts ms : ℤ) (f : Bool) (data : List Reading) : LoopAcc :=
  (sortedByDateDesc pd data).foldl (loopStep pd ts (ts - 7 * usPerDay) ms f) ⟨0, 0, 0, 0, 0⟩

/-- Windows in which no present date string normalizes to the empty string
(the pathological case in which Python's string truthiness defeats the
accumulator's dedup check). -/
abbrev goodReadings (rs : List Reading) : Prop :=
  ∀ r ∈ rs, rawDate r ≠ "" → normDate r ≠ ""

/-- `goodReadings` lifted to the coordinator's optional snapshot. -/
abbrev goodData : Option Snapshot → Prop
  | none => True
  | some s => goodReadings s.all_readings

/-! ### Concrete fixtures for witnesses and counterexamples -/

/-- A reading of 150 L on Day 0 (2024-12-15) at 10:00 UTC. -/
def r150 : Reading := ⟨some "2024-12-15T10:00:00+00:00", some 150, none⟩

/-- A reading of 200 L on Day -1 (2024-12-14) at 10:00 UTC. -/
def r200 : Reading := ⟨some "2024-12-14T10:00:00+00:00", some 200, none⟩

/-- A correction reading of -10 L on Day -1. -/
def rNeg : Reading := ⟨some "2024-12-14T10:00:00+00:00", some (-10), none⟩

/-- A reading whose date string is unparsable. -/
def rGarbage : Reading := ⟨some "garbage", some 5, none⟩

/-- A reading on Day 0 with its `consumption` key absent. -/
def rNoCons : Reading := ⟨some "2024-12-15T10:00:00+00:00", none, none⟩

/-- A reading on Day -1 with its `consumption` key absent. -/
def rNoCons14 : Reading := ⟨some "2024-12-14T10:00:00+00:00", none, none⟩

/-- A reading whose date string normalizes to the empty string: the raw
date `"+00:00"` is truthy, but stripping the offset suffix leaves `""`. -/
def rEmptyNorm : Reading := ⟨some "+00:00", some 5, none⟩

/-- A concrete embedded `datetime.fromisoformat`, defined on the two
normalized fixture dates (microsecond timeline, day-granular values). -/
def pd0 : String → Option ℤ := fun s =>
  if s = "2024-12-15T10:00:00" then some (15 * usPerDay)
  else if s = "2024-12-14T10:00:00" then some (14 * usPerDay)
  else none

/-- A concrete `today_start` (midnight opening Day 0). -/
def ts0 : ℤ := 15 * usPerDay

/-- A concrete `month_start` (first of the month at midnight). -/
def ms0 : ℤ := 1 * usPerDay

/-- A coordinator snapshot whose window is the two-reading fixture. -/
def snapA : Snapshot := { emptySnapshot with all_readings := [r150, r200] }

/-- A coordinator snapshot whose window is the empty-normalization fixture. -/
def snapBad : Snapshot := { emptySnapshot with all_readings := [rEmptyNorm] }

/-- The snapshot the aggregator produces for the single-negative-reading
window (filtering enabled). -/
def snapNeg : Snapshot :=
  { latest_reading := some (-10)
    daily_total := 0
    weekly_total := 0
    monthly_total := 0
    last_reading_date := some "2024-12-14T10:00:00+00:00"
    cil := none
    meter_number := some "M1"
    all_readings := [rNeg]
    negative_values_found := 1
    adjustments_total := -10 }

/-- The snapshot the aggregator produces for the two-reading fixture window
(filtering enabled). -/
def snapPos : Snapshot :=
  { latest_reading := some 150
    daily_total := 150
    weekly_total := 350
    monthly_total := 350
    last_reading_date := some "2024-12-15T10:00:00+00:00"
    cil := none
    meter_number := some "M1"
    all_readings := [r150, r200]
    negative_values_found := 0
    adjustments_total := 0 }

/-- A concrete embedded `float(...)` parser for the restore witness. -/
def pf0 : String → Option ℤ := fun s => if s = "350" then some 350 else none

/-- A restorable previous state with a numeric state string and a persisted
`last_processed_date` attribute. -/
def lsGood : LastState := ⟨"350", [("last_processed_date", "2024-12-15T10:00:00")]⟩

/-- A restorable previous state whose state string does not parse (but which
still carries a persisted `last_processed_date` attribute). -/
def lsBad : LastState := ⟨"unknown", [("last_processed_date", "2024-12-15T10:00:00")]⟩

/-! ### Order facts about the embedded Python string comparison -/

theorem listLe_refl : ∀ l : List Char, listLe l l = true
  | [] => rfl
  | a :: as => by
    simp only [listLe, lt_irrefl a, if_neg (lt_irrefl a)]
    exact listLe_refl as

theorem listLe_trans : ∀ {a b c : List Char},
    listLe a b = true → listLe b c = true → listLe a c = true
  | [], _, _, _, _ => rfl
  | _ :: _, [], _, hab, _ => by simp [listLe] at hab
  | _ :: _, _ :: _, [], _, hbc => by simp [listLe] at hbc
  | a :: as, b :: bs, c :: cs, hab, hbc => by
    simp only [listLe] at hab hbc ⊢
    rcases lt_trichotomy a b with h1 | h1 | h1
    · rcases lt_trichotomy b c with h2 | h2 | h2
      · rw [if_pos (lt_trans h1 h2)]
      · subst h2; rw [if_pos h1]
      · rw [if_neg (lt_asymm h2), if_pos h2] at hbc
        exact absurd hbc Bool.false_ne_true
    · subst h1
      rw [if_neg (lt_irrefl a), if_neg (lt_irrefl a)] at hab
      rcases lt_trichotomy a c with h2 | h2 | h2
      · rw [if_pos h2]
      · subst h2
        rw [if_neg (lt_irrefl a), if_neg (lt_irrefl a)] at hbc ⊢
        exact listLe_trans hab hbc
      · rw [if_neg (lt_asymm h2), if_pos h2] at hbc
        exact absurd hbc Bool.false_ne_true
    · rw [if_neg (lt_asymm h1), if_pos h1] at hab
      exact absurd hab Bool.false_ne_true

theorem listLt_le : ∀ {a b : List Char}, listLt a b = true → listLe a b = true
  | [], [], h => by simp [listLt] at h
  | [], _ :: _, _ => rfl
  | _ :: _, [], h => by simp [listLt] at h
  | a :: as, b :: bs, h => by
    simp only [listLt] at h
    simp only [listLe]
    rcases lt_trichotomy a b with h1 | h1 | h1
    · rw [if_pos h1]
    · subst h1
      rw [if_neg (lt_irrefl a), if_neg (lt_irrefl a)] at h ⊢
      exact listLt_le h
    · rw [if_neg (lt_asymm h1), if_pos h1] at h
      exact absurd h Bool.false_ne_true

theorem listLe_of_not_lt : ∀ {a b : List Char}, listLt a b = false → listLe b a = true
  | [], [], _ => rfl
  | [], _ :: _, h => by simp [listLt] at h
  | _ :: _, [], _ => rfl
  | a :: as, b :: bs, h => by
    simp only [listLt] at h
    simp only [listLe]
    rcases lt_trichotomy a b with h1 | h1 | h1
    · rw [if_pos h1] at h
      exact absurd h Bool.true_eq_false_eq_False.elim
    · subst h1
      rw [if_neg (lt_irrefl a), if_neg (lt_irrefl a)] at h ⊢
      exact listLe_of_not_lt h
    · rw [if_pos h1]

theorem strLe_refl (s : String) : strLe s s = true := listLe_refl s.data

theorem strLe_trans {a b c : String} (hab : strLe a b = true) (hbc : strLe b c = true) :
    strLe a c = true := listLe_trans hab hbc

theorem strLt_le {a b : String} (h : strLt a b = true) : strLe a b = true := listLt_le h

theorem strLe_of_not_lt {a b : String} (h : strLt a b = false) : strLe b a = true :=
  listLe_of_not_lt h

theorem strLe_empty_right : ∀ {s : String}, strLe s "" = true → s = "" := by
  intro s h
  cases s with
  | mk l =>
    cases l with
    | nil => rfl
    | cons c cs => exact absurd h (by exact (Bool.false_ne_true : strLe ⟨c :: cs⟩ "" ≠ true))

theorem strLt_empty_left : ∀ {s : String}, s ≠ "" → strLt "" s = true := by
  intro s h
  cases s with
  | mk l =>
    cases l with
    | nil => exact absurd rfl h
    | cons c cs => rfl

theorem ne_empty_of_strLe {a b : String} (h : strLe a b = true) (ha : a ≠ "") : b ≠ "" :=
  fun hb => ha (strLe_empty_right (hb ▸ h))

/-! ### Invariants of the cumulative loop -/

theorem skipOld_spec {lpd : Option String} {cl : String} (h : skipOld lpd cl = true) :
    ∃ d, lpd = some d ∧ d ≠ "" ∧ strLe cl d = true := by
  cases lpd with
  | none => simp [skipOld] at h
  | some d =>
    by_cases hd : d = ""
    · simp [skipOld, hd] at h
    · exact ⟨d, rfl, hd, by simpa [skipOld, hd] using h⟩

theorem skipOld_of {b cl : String} (hb : b ≠ "") (hle : strLe cl b = true) :
    skipOld (some b) cl = true := by
  simp [skipOld, hb, hle]

theorem cumulStep_mr_mono (lpd : Option String) (i : ℤ) (mo : Option String) (r : Reading)
    (a : String) (ha : mo = some a) :
    ∃ b, (cumulStep lpd (i, mo) r).2 = some b ∧ strLe a b = true := by
  subst ha
  by_cases hr : rawDate r = ""
  · exact ⟨a, by simp [cumulStep, hr], strLe_refl a⟩
  · by_cases hs : skipOld lpd (normDate r) = true
    · exact ⟨a, by simp [cumulStep, hr, hs], strLe_refl a⟩
    · by_cases hlt : strLt a (normDate r) = true
      · exact ⟨normDate r, by simp [cumulStep, hr, hs, hlt], strLt_le hlt⟩
      · exact ⟨a, by simp [cumulStep, hr, hs, hlt], strLe_refl a⟩

theorem cumul_mr_mono (lpd : Option String) :
    ∀ (rs : List Reading) (acc : ℤ × Option String) (a : String), acc.2 = some a →
      ∃ b, (rs.foldl (cumulStep lpd) acc).2 = some b ∧ strLe a b = true := by
  intro rs
  induction rs with
  | nil => exact fun acc a ha => ⟨a, ha, strLe_refl a⟩
  | cons x xs ih =>
    intro acc a ha
    rw [List.foldl_cons]
    obtain ⟨i, mo⟩ := acc
    obtain ⟨m, hm, ham⟩ := cumulStep_mr_mono lpd i mo x a ha
    obtain ⟨b, hb, hmb⟩ := ih (cumulStep lpd (i, mo) x) m hm
    exact ⟨b, hb, strLe_trans ham hmb⟩

theorem cumul_covered (lpd : Option String) :
    ∀ (rs : List Reading) (acc : ℤ × Option String) (r : Reading),
      r ∈ rs → rawDate r ≠ "" →
      skipOld lpd (normDate r) = true ∨
        ∃ b, (rs.foldl (cumulStep lpd) acc).2 = some b ∧ strLe (normDate r) b = true := by
  intro rs
  induction rs with
  | nil => intro acc r hr; cases hr
  | cons x xs ih =>
    intro acc r hmem hraw
    rw [List.foldl_cons]
    rcases List.mem_cons.mp hmem with heq | hmem'
    · subst heq
      by_cases hs : skipOld lpd (normDate r) = true
      · exact Or.inl hs
      · right
        obtain ⟨i, mo⟩ := acc
        have hstep : ∃ m, (cumulStep lpd (i, mo) r).2 = some m ∧ strLe (normDate r) m = true := by
          cases mo with
          | none => exact ⟨normDate r, by simp [cumulStep, hraw, hs], strLe_refl _⟩
          | some m =>
            by_cases hlt : strLt m (normDate r) = true
            · exact ⟨normDate r, by simp [cumulStep, hraw, hs, hlt], strLe_refl _⟩
            · refine ⟨m, by simp [cumulStep, hraw, hs, hlt], ?_⟩
              exact strLe_of_not_lt (Bool.not_eq_true _ ▸ hlt)
        obtain ⟨m, hm, hlem⟩ := hstep
        obtain ⟨b, hb, hmb⟩ := cumul_mr_mono lpd xs (cumulStep lpd (i, mo) r) m hm
        exact ⟨b, hb, strLe_trans hlem hmb⟩
    · exact ih (cumulStep lpd acc x) r hmem' hraw

theorem cumul_skip_all (lpd : Option String) :
    ∀ (rs : List Reading) (acc : ℤ × Option String),
      (∀ r ∈ rs, rawDate r = "" ∨ skipOld lpd (normDate r) = true) →
      rs.foldl (cumulStep lpd) acc = acc := by
  intro rs
  induction rs with
  | nil => intro acc _; rfl
  | cons x xs ih =>
    intro acc h
    rw [List.foldl_cons]
    have hstep : cumulStep lpd acc x = acc := by
      rcases h x (List.mem_cons_self x xs) with hx | hx
      · simp [cumulStep, hx]
      · by_cases hr : rawDate x = ""
        · simp [cumulStep, hr]
        · simp [cumulStep, hr, hx]
    rw [hstep]
    exact ih acc fun r hr => h r (List.mem_cons_of_mem x hr)

theorem cumul_inc_mr (lpd : Option String) :
    ∀ (rs : List Reading) (acc : ℤ × Option String), goodReadings rs →
      (rs.foldl (cumulStep lpd) acc).1 ≠ acc.1 →
      ∃ b, (rs.foldl (cumulStep lpd) acc).2 = some b ∧ b ≠ "" := by
  intro rs
  induction rs with
  | nil => intro acc _ hne; exact absurd rfl hne
  | cons x xs ih =>
    intro acc hg hne
    rw [List.foldl_cons] at hne ⊢
    have hgtail : goodReadings xs := fun r hr => hg r (List.mem_cons_of_mem x hr)
    by_cases hr : rawDate x = ""
    · have hstep : cumulStep lpd acc x = acc := by simp [cumulStep, hr]
      rw [hstep] at hne ⊢
      exact ih acc hgtail hne
    · by_cases hs : skipOld lpd (normDate x) = true
      · have hstep : cumulStep lpd acc x = acc := by simp [cumulStep, hr, hs]
        rw [hstep] at hne ⊢
        exact ih acc hgtail hne
      · have hcl : normDate x ≠ "" := hg x (List.mem_cons_self x xs) hr
        obtain ⟨i, mo⟩ := acc
        have hstep : ∃ m, (cumulStep lpd (i, mo) x).2 = some m ∧ m ≠ "" := by
          cases mo with
          | none => exact ⟨normDate x, by simp [cumulStep, hr, hs], hcl⟩
          | some m =>
            by_cases hlt : strLt m (normDate x) = true
            · exact ⟨normDate x, by simp [cumulStep, hr, hs, hlt], hcl⟩
            · refine ⟨m, by simp [cumulStep, hr, hs, hlt], ?_⟩
              intro hm
              exact hlt (hm ▸ strLt_empty_left hcl)
        obtain ⟨m, hm, hmne⟩ := hstep
        obtain ⟨b, hb, hmb⟩ := cumul_mr_mono lpd xs (cumulStep lpd (i, mo) x) m hm
        exact ⟨b, hb, ne_empty_of_strLe hmb hmne⟩

theorem ingestTick_cum_le (st : CumState) (rs : List Reading) :
    st.cumulative_value ≤ (ingestTick st rs).cumulative_value := by
  unfold ingestTick
  split
  · exact le_refl _
  · split
    · exact le_add_of_nonneg_right (le_of_lt (by assumption))
    · exact le_refl _

theorem ingestTick_lpd_mono (st : CumState) (rs : List Reading) (d d' : String)
    (h1 : st.last_processed_date = some d)
    (h2 : (ingestTick st rs).last_processed_date = some d') : strLe d d' = true := by
  unfold ingestTick at h2
  split at h2
  · rw [h1] at h2
    cases h2
    exact strLe_refl d
  · split at h2
    · obtain ⟨b, hb, hdb⟩ := cumul_mr_mono st.last_processed_date rs
        (0, st.last_processed_date) d h1
      have h2' : (List.foldl (cumulStep st.last_processed_date)
          (0, st.last_processed_date) rs).2 = some d' := h2
      rw [hb] at h2'
      cases h2'
      exact hdb
    · rw [h1] at h2
      cases h2
      exact strLe_refl d

theorem tick_cum_le (st : CumState) (data : Option Snapshot) :
    st.cumulative_value ≤ ((nativeValue st data).1).cumulative_value := by
  cases data with
  | none => exact le_refl _
  | some s => exact ingestTick_cum_le st s.all_readings

/-- C1: on every call to the cumulative sensor's value computation, from any
state, the cumulative value does not decrease and the last-processed
timestamp does not move backwards (in the code's own string order); and
hence across any sequence of ticks the cumulative value never decreases. -/
theorem claim_C1_cumulative_monotone (st : CumState) (data : Option Snapshot)
    (ticks : List (Option Snapshot)) :
    st.cumulative_value ≤ ((nativeValue st data).1).cumulative_value ∧
    (∀ d d', st.last_processed_date = some d →
      ((nativeValue st data).1).last_processed_date = some d' → strLe d d' = true) ∧
    st.cumulative_value ≤
      (ticks.foldl (fun s w => (nativeValue s w).1) st).cumulative_value := by
  refine ⟨tick_cum_le st data, ?_, ?_⟩
  · intro d d' h1 h2
    cases data with
    | none =>
      have h2' : st.last_processed_date = some d' := h2
      rw [h1] at h2'
      cases h2'
      exact strLe_refl d
    | some s => exact ingestTick_lpd_mono st s.all_readings d d' h1 h2
  · clear data
    induction ticks generalizing st with
    | nil => exact le_refl _
    | cons w ws ih =>
      rw [List.foldl_cons]
      exact le_trans (tick_cum_le st w) (ih ((nativeValue st w).1))

theorem claim_C1_witness :
    (5 : ℤ) ≤ ((nativeValue ⟨5, some "2024-12-13T00:00:00"⟩ (some snapA)).1).cumulative_value ∧
    strLe "2024-12-13T00:00:00" "2024-12-15T10:00:00" = true :=
  ⟨(claim_C1_cumulative_monotone ⟨5, some "2024-12-13T00:00:00"⟩ (some snapA) []).1,
   (claim_C1_cumulative_monotone ⟨5, some "2024-12-13T00:00:00"⟩ (some snapA) []).2.1
     "2024-12-13T00:00:00" "2024-12-15T10:00:00" rfl (by decide)⟩

/-- C2 (amended): re-ingesting an identical window is idempotent on
`cumulative_value`, provided no present date string of the window normalizes
to the empty string (the failure mode of the counterexample). -/
theorem claim_C2_idempotent (st : CumState) (data : Option Snapshot) (h : goodData data) :
    ((nativeValue (nativeValue st data).1 data).1).cumulative_value =
      ((nativeValue st data).1).cumulative_value := by
  cases data with
  | none => rfl
  | some s =>
    have hg : goodReadings s.all_readings := h
    show (ingestTick (ingestTick st s.all_readings) s.all_readings).cumulative_value =
      (ingestTick st s.all_readings).cumulative_value
    by_cases hemp : s.all_readings.isEmpty
    · simp [ingestTick, hemp]
    · by_cases hpos : 0 < (cumulIngest st.last_processed_date s.all_readings).1
      · have h1 : ingestTick st s.all_readings =
            ⟨st.cumulative_value + (cumulIngest st.last_processed_date s.all_readings).1,
             (cumulIngest st.last_processed_date s.all_readings).2⟩ := by
          unfold ingestTick
          rw [if_neg hemp, if_pos hpos]
        have hne : (cumulIngest st.last_processed_date s.all_readings).1 ≠
            ((0 : ℤ), st.last_processed_date).1 := ne_of_gt hpos
        obtain ⟨b, hb, hbne⟩ := cumul_inc_mr st.last_processed_date s.all_readings
          (0, st.last_processed_date) hg hne
        have hskip : ∀ r ∈ s.all_readings, rawDate r = "" ∨
            skipOld (some b) (normDate r) = true := by
          intro r hr
          by_cases hraw : rawDate r = ""
          · exact Or.inl hraw
          · refine Or.inr ?_
            rcases cumul_covered st.last_processed_date s.all_readings
                (0, st.last_processed_date) r hr hraw with hsk | ⟨b', hb', hle⟩
            · obtain ⟨d, hd, hdne, hled⟩ := skipOld_spec hsk
              obtain ⟨b'', hb'', hdb⟩ := cumul_mr_mono st.last_processed_date s.all_readings
                (0, st.last_processed_date) d hd
              rw [hb] at hb''
              cases hb''
              exact skipOld_of hbne (strLe_trans hled hdb)
            · rw [hb] at hb'
              cases hb'
              exact skipOld_of hbne hle
        have h2 : cumulIngest (some b) s.all_readings = (0, some b) :=
          cumul_skip_all (some b) s.all_readings (0, some b) hskip
        have h3 : ∀ st1 : CumState, st1.last_processed_date = some b →
            ingestTick st1 s.all_readings = st1 := by
          intro st1 hlpd
          unfold ingestTick
          rw [if_neg hemp, hlpd, h2]
          simp
        rw [h3 (ingestTick st s.all_readings) (by rw [h1]; exact hb)]
      · have h1 : ingestTick st s.all_readings = st := by
          unfold ingestTick
          rw [if_neg hemp, if_neg hpos]
        rw [h1, h1]

theorem claim_C2_counterexample :
    ((nativeValue ⟨0, none⟩ (some snapBad)).1).cumulative_value = 5 ∧
    ((nativeValue (nativeValue ⟨0, none⟩ (some snapBad)).1 (some snapBad)).1).cumulative_value
      = 10 := by
  exact ⟨rfl, rfl⟩

theorem claim_C2_witness :
    ((nativeValue (nativeValue ⟨5, some "2024-12-13T00:00:00"⟩ (some snapA)).1
        (some snapA)).1).cumulative_value =
      ((nativeValue ⟨5, some "2024-12-13T00:00:00"⟩ (some snapA)).1).cumulative_value :=
  claim_C2_idempotent ⟨5, some "2024-12-13T00:00:00"⟩ (some snapA) (by decide)

/-- C3: on restore, a parsable persisted value `V` makes the accumulator
start at exactly `V` (with the persisted timestamp attribute restored
separately), while a failed parse resets the state to `0` with a cleared
timestamp, whatever the persisted attributes were. -/
theorem claim_C3_restore (pf : String → Option ℤ) (ls : LastState) :
    (∀ v, pf ls.state = some v →
      (asyncAddedToHass pf (some ls) ⟨0, none⟩).cumulative_value = v) ∧
    (pf ls.state = none →
      asyncAddedToHass pf (some ls) ⟨0, none⟩ = ⟨0, none⟩) := by
  constructor
  · intro v hv
    simp [asyncAddedToHass, hv]
  · intro hv
    simp [asyncAddedToHass, hv]

theorem claim_C3_witness :
    (asyncAddedToHass pf0 (some lsGood) ⟨0, none⟩).cumulative_value = 350 ∧
    asyncAddedToHass pf0 (some lsBad) ⟨0, none⟩ = ⟨0, none⟩ :=
  ⟨(claim_C3_restore pf0 lsGood).1 350 rfl, (claim_C3_restore pf0 lsBad).2 rfl⟩

/-! ### Characterization of the aggregation loop -/

theorem loopStep_fields (pd : String → Option ℤ) (ts ws ms : ℤ) (f : Bool)
    (acc : LoopAcc) (r : Reading) :
    (loopStep pd ts ws ms f acc r).negCount
        = acc.negCount + (if negFilter pd r then 1 else 0) ∧
    (loopStep pd ts ws ms f acc r).adjTotal
        = acc.adjTotal + (if negFilter pd r then consD r else 0) ∧
    (loopStep pd ts ws ms f acc r).daily
        = acc.daily + (if rangeFilter pd f ts r then consD r else 0) ∧
    (loopStep pd ts ws ms f acc r).weekly
        = acc.weekly + (if rangeFilter pd f ws r then consD r else 0) ∧
    (loopStep pd ts ws ms f acc r).monthly
        = acc.monthly + (if rangeFilter pd f ms r then consD r else 0) := by
  cases hk : sortKey pd r with
  | error e =>
    have hkb : keyB pd r = false := by simp [keyB, hk]
    simp [loopStep, hk, negFilter, rangeFilter, hkb]
  | ok t =>
    have hkb : keyB pd r = true := by simp [keyB, hk]
    have hkd : keyD pd r = t := by simp [keyD, hk]
    simp only [loopStep, hk]
    refine ⟨?_, ?_, ?_, ?_, ?_⟩ <;>
      by_cases hc : consD r < 0 <;>
      cases f <;>
      simp [negFilter, rangeFilter, addRanges, hkb, hkd, hc] <;>
      split_ifs <;>
      omega

theorem loopFold_fields (pd : String → Option ℤ) (ts ws ms : ℤ) (f : Bool) :
    ∀ (l : List Reading) (acc : LoopAcc),
      (l.foldl (loopStep pd ts ws ms f) acc).negCount
          = acc.negCount + (l.filter (negFilter pd)).length ∧
      (l.foldl (loopStep pd ts ws ms f) acc).adjTotal
          = acc.adjTotal + sumCons (l.filter (negFilter pd)) ∧
      (l.foldl (loopStep pd ts ws ms f) acc).daily
          = acc.daily + sumCons (l.filter (rangeFilter pd f ts)) ∧
      (l.foldl (loopStep pd ts ws ms f) acc).weekly
          = acc.weekly + sumCons (l.filter (rangeFilter pd f ws)) ∧
      (l.foldl (loopStep pd ts ws ms f) acc).monthly
          = acc.monthly + sumCons (l.filter (rangeFilter pd f ms)) := by
  intro l
  induction l with
  | nil => intro acc; simp [sumCons]
  | cons r l ih =>
    intro acc
    rw [List.foldl_cons]
    obtain ⟨h1, h2, h3, h4, h5⟩ := ih (loopStep pd ts ws ms f acc r)
    obtain ⟨g1, g2, g3, g4, g5⟩ := loopStep_fields pd ts ws ms f acc r
    refine ⟨?_, ?_, ?_, ?_, ?_⟩
    · rw [h1, g1, List.filter_cons]
      by_cases hp : negFilter pd r = true
      · simp [hp, sumCons]
        omega
      · simp [hp, sumCons]
    · rw [h2, g2, List.filter_cons]
      by_cases hp : negFilter pd r = true
      · simp [hp, sumCons]
        omega
      · simp [hp, sumCons]
    · rw [h3, g3, List.filter_cons]
      by_cases hp : rangeFilter pd f ts r = true
      · simp [hp, sumCons]
        omega
      · simp [hp, sumCons]
    · rw [h4, g4, List.filter_cons]
      by_cases hp : rangeFilter pd f ws r = true
      · simp [hp, sumCons]
        omega
      · simp [hp, sumCons]
    · rw [h5, g5, List.filter_cons]
      by_cases hp : rangeFilter pd f ms r = true
      · simp [hp, sumCons]
        omega
      · simp [hp, sumCons]

theorem process_ok_fields (pd : String → Option ℤ) (mn : String) (ts ms : ℤ) (f : Bool)
    (data : List Reading) (snap : Snapshot)
    (h : processConsumptionData pd mn ts ms f data = .ok snap) :
    (data = [] ∧ snap = emptySnapshot) ∨
    (firstKeyError pd data = none ∧
      snap.daily_total = (if f then max 0 (procAcc pd ts ms f data).daily
        else (procAcc pd ts ms f data).daily) ∧
      snap.weekly_total = (if f then max 0 (procAcc pd ts ms f data).weekly
        else (procAcc pd ts ms f data).weekly) ∧
      snap.monthly_total = (if f then max 0 (procAcc pd ts ms f data).monthly
        else (procAcc pd ts ms f data).monthly) ∧
      snap.negative_values_found = (procAcc pd ts ms f data).negCount ∧
      snap.adjustments_total = (procAcc pd ts ms f data).adjTotal ∧
      snap.all_readings = (sortedByDateDesc pd data).take 100) := by
  simp only [processConsumptionData] at h
  by_cases hemp : data.isEmpty
  · rw [if_pos hemp] at h
    cases h
    exact Or.inl ⟨List.isEmpty_iff.mp hemp, rfl⟩
  · rw [if_neg hemp] at h
    cases hfke : firstKeyError pd data with
    | some e => rw [hfke] at h; simp at h
    | none =>
      rw [hfke] at h
      split at h
      · exact Except.noConfusion h
      · split at h
        · exact Except.noConfusion h
        · exact Except.noConfusion h
        · cases h
          exact Or.inr ⟨rfl, rfl, rfl, rfl, rfl, rfl, rfl⟩

theorem rangeFilter_nonneg {pd : String → Option ℤ} {start : ℤ} {r : Reading}
    (h : rangeFilter pd true start r = true) : 0 ≤ consD r := by
  simp only [rangeFilter, Bool.and_eq_true, Bool.not_eq_true', Bool.and_eq_false_iff,
    decide_eq_true_eq, decide_eq_false_iff_not] at h
  rcases h with ⟨⟨-, hneg⟩, -⟩
  rcases hneg with hneg | hneg
  · exact Bool.noConfusion hneg
  · exact not_lt.mp hneg

theorem sumCons_nonneg {l : List Reading} (h : ∀ r ∈ l, 0 ≤ consD r) : 0 ≤ sumCons l := by
  unfold sumCons
  apply List.sum_nonneg
  intro x hx
  obtain ⟨r, hr, rfl⟩ := List.mem_map.mp hx
  exact h r hr

/-- C4: negative readings are always counted into `negative_values_found`
and summed into `adjustments_total`, independently of the filter flag, and
each range total sums exactly the readings selected by `rangeFilter`: with
the filter on, negative readings are excluded from all three sums; with it
off, they are included. -/
theorem claim_C4_negative_handling (pd : String → Option ℤ) (mn : String) (ts ms : ℤ)
    (f : Bool) (data : List Reading) (snap : Snapshot)
    (h : processConsumptionData pd mn ts ms f data = .ok snap) :
    snap.negative_values_found = (data.filter (negFilter pd)).length ∧
    snap.adjustments_total = sumCons (data.filter (negFilter pd)) ∧
    snap.daily_total = sumCons (data.filter (rangeFilter pd f ts)) ∧
    snap.weekly_total = sumCons (data.filter (rangeFilter pd f (ts - 7 * usPerDay))) ∧
    snap.monthly_total = sumCons (data.filter (rangeFilter pd f ms)) := by
  rcases process_ok_fields pd mn ts ms f data snap h with ⟨rfl, rfl⟩ | hmain
  · simp [emptySnapshot, sumCons]
  · obtain ⟨hfke, h1, h2, h3, h4, h5, h6⟩ := hmain
    simp only [procAcc] at h1 h2 h3 h4 h5
    have hperm : List.Perm (sortedByDateDesc pd data) data := List.perm_insertionSort _ _
    have hl : ∀ p : Reading → Bool,
        ((sortedByDateDesc pd data).filter p).length = (data.filter p).length :=
      fun p => (hperm.filter p).length_eq
    have hs : ∀ p : Reading → Bool,
        sumCons ((sortedByDateDesc pd data).filter p) = sumCons (data.filter p) :=
      fun p => ((hperm.filter p).map consD).sum_eq
    obtain ⟨g1, g2, g3, g4, g5⟩ := loopFold_fields pd ts (ts - 7 * usPerDay) ms f
      (sortedByDateDesc pd data) ⟨0, 0, 0, 0, 0⟩
    have hclamp : ∀ start : ℤ, f = true →
        (0 : ℤ) ≤ sumCons (data.filter (rangeFilter pd f start)) := by
      intro start hf
      subst hf
      exact sumCons_nonneg fun r hr => rangeFilter_nonneg (List.mem_filter.mp hr).2
    refine ⟨?_, ?_, ?_, ?_, ?_⟩
    · rw [h4, g1, hl (negFilter pd)]; simp
    · rw [h5, g2, hs (negFilter pd)]; simp
    · rw [h1, g3, hs (rangeFilter pd f ts)]
      cases f with
      | false => simp
      | true => simp [max_eq_right (hclamp ts rfl)]
    · rw [h2, g4, hs (rangeFilter pd f (ts - 7 * usPerDay))]
      cases f with
      | false => simp
      | true => simp [max_eq_right (hclamp (ts - 7 * usPerDay) rfl)]
    · rw [h3, g5, hs (rangeFilter pd f ms)]
      cases f with
      | false => simp
      | true => simp [max_eq_right (hclamp ms rfl)]

theorem claim_C4_witness :
    snapNeg.negative_values_found = ([rNeg].filter (negFilter pd0)).length ∧
    snapNeg.adjustments_total = sumCons ([rNeg].filter (negFilter pd0)) ∧
    snapNeg.daily_total = sumCons ([rNeg].filter (rangeFilter pd0 true ts0)) ∧
    snapNeg.weekly_total = sumCons ([rNeg].filter (rangeFilter pd0 true (ts0 - 7 * usPerDay))) ∧
    snapNeg.monthly_total = sumCons ([rNeg].filter (rangeFilter pd0 true ms0)) :=
  claim_C4_negative_handling pd0 "M1" ts0 ms0 true [rNeg] snapNeg rfl

/-- C5: with the negative filter enabled, every snapshot the aggregator
produces has non-negative daily, weekly and monthly totals. -/
theorem claim_C5_totals_nonneg (pd : String → Option ℤ) (mn : String) (ts ms : ℤ)
    (data : List Reading) (snap : Snapshot)
    (h : processConsumptionData pd mn ts ms true data = .ok snap) :
    0 ≤ snap.daily_total ∧ 0 ≤ snap.weekly_total ∧ 0 ≤ snap.monthly_total := by
  rcases process_ok_fields pd mn ts ms true data snap h with ⟨rfl, rfl⟩ | hmain
  · exact ⟨le_refl 0, le_refl 0, le_refl 0⟩
  · obtain ⟨-, h1, h2, h3, -, -, -⟩ := hmain
    refine ⟨?_, ?_, ?_⟩
    · rw [h1]; simp
    · rw [h2]; simp
    · rw [h3]; simp

theorem claim_C5_witness :
    0 ≤ snapNeg.daily_total ∧ 0 ≤ snapNeg.weekly_total ∧ 0 ≤ snapNeg.monthly_total :=
  claim_C5_totals_nonneg pd0 "M1" ts0 ms0 [rNeg] snapNeg rfl

/-- C6: contrary to the claim, a batch containing a record with an
unparsable date string aborts: the `sorted(...)` key function raises
`ValueError` before the per-reading try/except is reached. The same window
without the bad record aggregates normally. -/
theorem claim_C6_unparsable_date_aborts :
    processConsumptionData pd0 "M1" ts0 ms0 true [rGarbage, r150] =
      .error (.valueError "garbage") ∧
    processConsumptionData pd0 "M1" ts0 ms0 true [r150] = .ok
      { latest_reading := some 150
        daily_total := 150
        weekly_total := 150
        monthly_total := 150
        last_reading_date := some "2024-12-15T10:00:00+00:00"
        cil := none
        meter_number := some "M1"
        all_readings := [r150]
        negative_values_found := 0
        adjustments_total := 0 } :=
  ⟨rfl, rfl⟩

/-- C8: a missing `consumption` defaults to 0 inside the aggregation loop
(second conjunct: the day-old record with no `consumption` contributes 0 and
the batch completes), but when the record with the missing field is the most
recent one, `latest["consumption"]` raises `KeyError` and the batch aborts
(third conjunct), contrary to the claim. -/
theorem claim_C8_missing_consumption :
    consD rNoCons = 0 ∧
    processConsumptionData pd0 "M1" ts0 ms0 true [r150, rNoCons14] = .ok
      { latest_reading := some 150
        daily_total := 150
        weekly_total := 150
        monthly_total := 150
        last_reading_date := some "2024-12-15T10:00:00+00:00"
        cil := none
        meter_number := some "M1"
        all_readings := [r150, rNoCons14]
        negative_values_found := 0
        adjustments_total := 0 } ∧
    processConsumptionData pd0 "M1" ts0 ms0 true [rNoCons] =
      .error (.keyError "consumption") :=
  ⟨rfl, rfl, rfl⟩

/-- C9: the empty fetch window yields the all-zero/null snapshot and no
exception. -/
theorem claim_C9_empty_window (pd : String → Option ℤ) (mn : String) (ts ms : ℤ) (f : Bool) :
    processConsumptionData pd mn ts ms f [] = .ok emptySnapshot ∧
    emptySnapshot.latest_reading = none ∧
    emptySnapshot.last_reading_date = none ∧
    emptySnapshot.daily_total = 0 ∧
    emptySnapshot.weekly_total = 0 ∧
    emptySnapshot.monthly_total = 0 ∧
    emptySnapshot.negative_values_found = 0 ∧
    emptySnapshot.adjustments_total = 0 :=
  ⟨rfl, rfl, rfl, rfl, rfl, rfl, rfl, rfl⟩

/-- C10: every produced snapshot's `all_readings` is the 100-element prefix
of the window sorted by normalized timestamp descending, so a cumulative
tick on the snapshot is exactly a tick on those at most 100 most recent
readings. -/
theorem claim_C10_truncation (pd : String → Option ℤ) (mn : String) (ts ms : ℤ)
    (f : Bool) (data : List Reading) (snap : Snapshot)
    (h : processConsumptionData pd mn ts ms f data = .ok snap) :
    snap.all_readings = (sortedByDateDesc pd data).take 100 ∧
    snap.all_readings.length ≤ 100 ∧
    (sortedByDateDesc pd data).Sorted (fun a b => keyD pd b ≤ keyD pd a) ∧
    List.Perm (sortedByDateDesc pd data) data ∧
    (∀ st : CumState, nativeValue st (some snap) =
      (ingestTick st ((sortedByDateDesc pd data).take 100),
       displayVal (ingestTick st ((sortedByDateDesc pd data).take 100)))) := by
  have h1 : snap.all_readings = (sortedByDateDesc pd data).take 100 := by
    rcases process_ok_fields pd mn ts ms f data snap h with ⟨rfl, rfl⟩ | hmain
    · rfl
    · exact hmain.2.2.2.2.2.2
  refine ⟨h1, ?_, ?_, List.perm_insertionSort _ _, ?_⟩
  · rw [h1, List.length_take]
    exact min_le_left _ _
  · letI : IsTotal Reading (fun a b => keyD pd b ≤ keyD pd a) := ⟨fun a b => le_total _ _⟩
    letI : IsTrans Reading (fun a b => keyD pd b ≤ keyD pd a) :=
      ⟨fun _ _ _ hab hbc => le_trans hbc hab⟩
    exact List.sorted_insertionSort _ _
  · intro st
    simp [nativeValue, h1]

theorem claim_C10_witness :
    snapPos.all_readings = (sortedByDateDesc pd0 [r200, r150]).take 100 ∧
    snapPos.all_readings.length ≤ 100 ∧
    (sortedByDateDesc pd0 [r200, r150]).Sorted (fun a b => keyD pd0 b ≤ keyD pd0 a) ∧
    List.Perm (sortedByDateDesc pd0 [r200, r150]) [r200, r150] ∧
    nativeValue ⟨0, none⟩ (some snapPos) =
      (ingestTick ⟨0, none⟩ ((sortedByDateDesc pd0 [r200, r150]).take 100),
       displayVal (ingestTick ⟨0, none⟩ ((sortedByDateDesc pd0 [r200, r150]).take 100))) :=
  ⟨(claim_C10_truncation pd0 "M1" ts0 ms0 true [r200, r150] snapPos rfl).1,
   (claim_C10_truncation pd0 "M1" ts0 ms0 true [r200, r150] snapPos rfl).2.1,
   (claim_C10_truncation pd0 "M1" ts0 ms0 true [r200, r150] snapPos rfl).2.2.1,
   (claim_C10_truncation pd0 "M1" ts0 ms0 true [r200, r150] snapPos rfl).2.2.2.1,
   (claim_C10_truncation pd0 "M1" ts0 ms0 true [r200, r150] snapPos rfl).2.2.2.2 ⟨0, none⟩⟩

/-- C7 counterexample: a call receiving two successive 401 responses before
a 200 performs two retries and succeeds — more than the claimed single level
of retry. -/
theorem claim_C7_counterexample :
    getConsumptionRun [.unauthorized, .unauthorized, .okJson (some [])] = .ok [] ∧
    retryCount [.unauthorized, .unauthorized, .okJson (some [])] = 2 ∧
    ¬ retryCount [.unauthorized, .unauthorized, .okJson (some [])] ≤ 1 :=
  ⟨rfl, rfl, by decide⟩

/-- C7 (amended): on each 401 the client re-authenticates and retries
recursively with no bound: with `k` consecutive 401 responses followed by a
success, both `get_consumption` and `get_user_subscriptions` perform `k`
retries and then succeed, for every `k`. -/
theorem claim_C7_unbounded_retry (k : ℕ) (l : List Reading) :
    getConsumptionRun (List.replicate k ApiResp.unauthorized ++ [ApiResp.okJson (some l)])
      = .ok l ∧
    getUserSubscriptionsRun (List.replicate k ApiResp.unauthorized ++ [ApiResp.okJson (some l)])
      = .ok l ∧
    retryCount (List.replicate k ApiResp.unauthorized ++ [ApiResp.okJson (some l)]) = k := by
  induction k with
  | zero => exact ⟨rfl, rfl, rfl⟩
  | succ n ih =>
    obtain ⟨h1, h2, h3⟩ := ih
    rw [List.replicate_succ, List.cons_append]
    exact ⟨h1, h2, congrArg (· + 1) h3⟩

end AguasCoimbra
